import Mathlib

/-!
Shallow embedding of the Helios ingestion service and storage writer
(Go sources: services/ingestion/models/event.go,
services/ingestion/handlers/event_handler.go, and the storage-writer
consumer), together with theorems settling the specification claims.

Modelling conventions:
* JSON documents are an inductive `Json` tree; numbers are modelled as `Int`
  (no claim depends on floating-point behaviour).
* Go `time.Time` values are modelled as `Int` nanoseconds since the epoch;
  the Go zero time is `0`.  `encoding/json` serializes a `time.Time` as an
  RFC3339 string, which is a lossless injective encoding of the instant, so
  the model represents the serialized instant as a lossless scalar
  (`Json.num`).
* A Go `map[string]interface{}` is modelled as `Option (List (String × Json))`:
  `none` is the nil map, `some l` a non-nil map whose entries are listed in
  Go's canonical (sorted-key) marshal order.  The nil/empty distinction is
  observable in the Go code (the storage writer branches on `Metadata != nil`).
-/

namespace Helios

/-- JSON value tree. -/
inductive Json where
  | null
  | bool (b : Bool)
  | num (n : Int)
  | str (s : String)
  | arr (elems : List Json)
  | obj (fields : List (String × Json))

/-- The `models.Event` struct (event.go).  Field order and JSON tags follow
the Go declaration; `timestamp`/`ingestedAt` are instants, `metadata` the
possibly-nil metadata map. -/
structure Event where
  timestamp : Int
  service : String
  level : String
  message : String
  metadata : Option (List (String × Json))
  traceID : String
  spanID : String
  ingestedAt : Int
  host : String

/-- The Go zero value of `models.Event`, produced by `var event models.Event`
before `json.Unmarshal` fills fields. -/
def Event.zero : Event :=
  { timestamp := 0, service := "", level := "", message := "", metadata := none
  , traceID := "", spanID := "", ingestedAt := 0, host := "" }

/-- Look up a key in a JSON object's field list.  The encoder below never
emits duplicate keys, so first-match lookup agrees with Go's decoder on
every document the encoder produces. -/
def getField (fs : List (String × Json)) (k : String) : Option Json :=
  (fs.find? (fun p => p.1 == k)).map (fun p => p.2)

/-- `encoding/json` semantics for a Go `string` struct field: an absent key
or JSON `null` leaves the zero value `""`; a JSON string fills the field;
any other JSON type is an unmarshal error. -/
def decodeStrField (fs : List (String × Json)) (k : String) : Option String :=
  match getField fs k with
  | none => some ""
  | some Json.null => some ""
  | some (Json.str s) => some s
  | some _ => none

/-- `encoding/json` semantics for a Go `time.Time` struct field: an absent
key or `null` leaves the zero instant; the serialized instant (modelled as a
lossless scalar, see the header comment) fills the field; any other JSON
type is an unmarshal error. -/
def decodeTimeField (fs : List (String × Json)) (k : String) : Option Int :=
  match getField fs k with
  | none => some 0
  | some Json.null => some 0
  | some (Json.num n) => some n
  | some _ => none

/-- `encoding/json` semantics for the `metadata map[string]interface{}`
field: absent or `null` leaves the nil map; a JSON object fills it; any
other JSON type is an unmarshal error. -/
def decodeMetaField (fs : List (String × Json)) : Option (Option (List (String × Json))) :=
  match getField fs "metadata" with
  | none => some none
  | some Json.null => some none
  | some (Json.obj m) => some (some m)
  | some _ => none

/-- `json.Unmarshal(bytes, &event)` for `models.Event`: the document must be
an object; each tagged field is decoded per its Go type; unknown keys are
ignored.  `none` is an unmarshal error. -/
def decodeEvent (j : Json) : Option Event :=
  match j with
  | Json.obj fs => do
      let ts ← decodeTimeField fs "timestamp"
      let sv ← decodeStrField fs "service"
      let lv ← decodeStrField fs "level"
      let ms ← decodeStrField fs "message"
      let md ← decodeMetaField fs
      let tr ← decodeStrField fs "trace_id"
      let sp ← decodeStrField fs "span_id"
      let ia ← decodeTimeField fs "ingested_at"
      let ho ← decodeStrField fs "host"
      some { timestamp := ts, service := sv, level := lv, message := ms
           , metadata := md, traceID := tr, spanID := sp, ingestedAt := ia, host := ho }
  | _ => none

/-- `json.Marshal` of `models.Event` (`Event.ToJSON`), following the struct
tags: `metadata`, `trace_id`, `span_id` and `host` carry `omitempty` and are
omitted when empty (for the map: nil or length 0; for strings: `""`).
`ingested_at` is declared `omitempty` in the Go source, but `omitempty` has
no effect on a struct-typed field such as `time.Time`, so it is always
emitted — exactly as `encoding/json` behaves. -/
def encodeEvent (e : Event) : Json :=
  Json.obj
    ([("timestamp", Json.num e.timestamp),
      ("service", Json.str e.service),
      ("level", Json.str e.level),
      ("message", Json.str e.message)]
     ++ (match e.metadata with
         | some (f :: fs) => [("metadata", Json.obj (f :: fs))]
         | _ => [])
     ++ (if e.traceID = "" then [] else [("trace_id", Json.str e.traceID)])
     ++ (if e.spanID = "" then [] else [("span_id", Json.str e.spanID)])
     ++ [("ingested_at", Json.num e.ingestedAt)]
     ++ (if e.host = "" then [] else [("host", Json.str e.host)]))

/-- The closed level set of the `oneof=DEBUG INFO WARN ERROR CRITICAL` tag. -/
def levelOk (l : String) : Bool :=
  l == "DEBUG" || l == "INFO" || l == "WARN" || l == "ERROR" || l == "CRITICAL"

/-- `validator.Struct` on `models.Event` per its tags:
`Timestamp` `required` (a zero `time.Time` fails `required`);
`Service` `required,min=1,max=255` (rune count);
`Level` `required,oneof=...`; `Message` `required,min=1`. -/
def validateStructEvent (e : Event) : Bool :=
  (e.timestamp != 0)
    && (e.service != "") && (1 ≤ e.service.length) && (e.service.length ≤ 255)
    && (e.level != "") && levelOk e.level
    && (e.message != "") && (1 ≤ e.message.length)

/-- `Event.Validate` (event.go): fills `Timestamp` with the current time when
it is zero, stamps `IngestedAt`, and returns `nil` unconditionally — the
`error` in its signature is never non-nil. -/
def eventValidate (e : Event) (now : Int) : Except String Event :=
  Except.ok { e with
              timestamp := if e.timestamp = 0 then now else e.timestamp
            , ingestedAt := now }

/-- `Event.ToJSON`: `json.Marshal` of the event.  Every value representable
in the model marshals successfully, so the `error` result is never taken;
the `Except` mirrors the Go signature. -/
def eventToJSON (e : Event) : Except String Json :=
  Except.ok (encodeEvent e)

/-- `Event.GetPartitionKey`: the service name. -/
def getPartitionKey (e : Event) : String :=
  e.service

/-- `[]byte(s)`: the UTF-8 bytes of a Go string. -/
def utf8Bytes (s : String) : List UInt8 :=
  s.toUTF8.toList

/-- A `kafka.Message` as built by the handlers: `Key` (partition key bytes),
`Value` (the event JSON) and `Time` (the event timestamp). -/
structure KafkaMessage where
  key : List UInt8
  value : Json
  time : Int

/-- HTTP response status of the ingestion handlers, carrying the `error`
string of `respondError` so distinct 400 branches stay distinguishable. -/
inductive HStatus where
  | badRequest (error : String)
  | internalError (error : String)
  | serviceUnavailable (error : String)
  | accepted

/-- Outcome of one `IngestEvent` request: the HTTP status, whether
`kafkaWriter.WriteMessages` was reached, and the message acknowledged by the
log on success (`none` when the write failed or was never attempted). -/
structure IngestResult where
  status : HStatus
  attemptedWrite : Bool
  delivered : Option KafkaMessage

/-- `EventHandler.IngestEvent` (event_handler.go, POST /api/v1/events).
`body` is the decoded request document (`none` = malformed JSON, and a
type-mismatched document also surfaces as the same 400 "Invalid JSON"
branch, since both are `json.Decoder.Decode` errors); `hostname` is the
handler's cached hostname; `now` the current instant; `kafkaOk` the outcome
of the synchronous `WriteMessages` call.  Control flow mirrors the source:
decode → `validator.Struct` → `event.Validate()` → `event.Host = hostname`
→ `event.ToJSON()` → `WriteMessages` → 202/503. -/
def ingestEvent (body : Option Json) (hostname : String) (now : Int) (kafkaOk : Bool) :
    IngestResult :=
  match body with
  | none => { status := HStatus.badRequest "Invalid JSON", attemptedWrite := false, delivered := none }
  | some j =>
    match decodeEvent j with
    | none => { status := HStatus.badRequest "Invalid JSON", attemptedWrite := false, delivered := none }
    | some event =>
      if validateStructEvent event = false then
        { status := HStatus.badRequest "Validation failed", attemptedWrite := false, delivered := none }
      else
        match eventValidate event now with
        | Except.error _ =>
          { status := HStatus.badRequest "Event validation failed", attemptedWrite := false, delivered := none }
        | Except.ok enriched0 =>
          let enriched := { enriched0 with host := hostname }
          match eventToJSON enriched with
          | Except.error _ =>
            { status := HStatus.internalError "Failed to serialize event", attemptedWrite := false, delivered := none }
          | Except.ok eventJSON =>
            let msg : KafkaMessage :=
              { key := utf8Bytes (getPartitionKey enriched), value := eventJSON, time := enriched.timestamp }
            if kafkaOk then
              { status := HStatus.accepted, attemptedWrite := true, delivered := some msg }
            else
              { status := HStatus.serviceUnavailable "Failed to ingest event", attemptedWrite := true, delivered := none }

/-- Decode the elements of the `events` array; any element error fails the
whole `json.Unmarshal`. -/
def decodeEventList (js : List Json) : Option (List Event) :=
  js.mapM decodeEvent

/-- `json.Unmarshal` into `models.EventBatch`: the outer `none` is an
unmarshal error; the inner `Option` distinguishes a nil `Events` slice
(key absent or `null`) from a present array. -/
def decodeBatch (j : Json) : Option (Option (List Event)) :=
  match j with
  | Json.obj fs =>
    match getField fs "events" with
    | none => some none
    | some Json.null => some none
    | some (Json.arr js) => (decodeEventList js).map some
    | some _ => none
  | _ => none

/-- The size conjunct of the `Events` tags `min=1,max=1000`. -/
def batchSizeOk (events : List Event) : Bool :=
  (1 ≤ events.length) && (events.length ≤ 1000)

/-- `validator.Struct` on `models.EventBatch` per the tag
`required,min=1,max=1000,dive`: a nil slice fails `required`; the length
bounds apply; `dive` makes the validator recurse into each element's own
struct tags. -/
def validateStructBatch (events : Option (List Event)) : Bool :=
  match events with
  | none => false
  | some l => batchSizeOk l && l.all validateStructEvent

/-- Accumulator of the per-event loop in `IngestEventBatch`: the prepared
Kafka messages and the running success/error counters. -/
structure BatchAcc where
  messages : List KafkaMessage
  successCount : Nat
  errorCount : Nat

/-- One iteration of the `IngestEventBatch` loop: `event.Validate()` (enrich),
`event.Host = hostname`, `validator.Struct(event)`, `event.ToJSON()`; a
failure of any step counts an error and skips the event, otherwise the
message is appended and the success counter incremented. -/
def processBatchEvent (hostname : String) (now : Int) (acc : BatchAcc) (event : Event) :
    BatchAcc :=
  match eventValidate event now with
  | Except.error _ => { acc with errorCount := acc.errorCount + 1 }
  | Except.ok enriched0 =>
    let enriched := { enriched0 with host := hostname }
    if validateStructEvent enriched = false then
      { acc with errorCount := acc.errorCount + 1 }
    else
      match eventToJSON enriched with
      | Except.error _ => { acc with errorCount := acc.errorCount + 1 }
      | Except.ok eventJSON =>
        { acc with
          messages := acc.messages ++
            [{ key := utf8Bytes (getPartitionKey enriched), value := eventJSON
             , time := enriched.timestamp }]
        , successCount := acc.successCount + 1 }

/-- The whole per-event loop of `IngestEventBatch`. -/
def processBatch (events : List Event) (hostname : String) (now : Int) : BatchAcc :=
  events.foldl (processBatchEvent hostname now) { messages := [], successCount := 0, errorCount := 0 }

/-- Outcome of one `IngestEventBatch` request: status, the `total`,
`success_count` and `error_count` fields of the 202 response body (zero on
the error responses, which carry no counts), whether `WriteMessages` was
reached, and the produce batch acknowledged on success. -/
structure BatchResult where
  status : HStatus
  total : Nat
  successCount : Nat
  errorCount : Nat
  attemptedWrite : Bool
  delivered : Option (List KafkaMessage)

/-- `EventHandler.IngestEventBatch` (event_handler.go,
POST /api/v1/events/batch): decode → `validator.Struct(batch)` → per-event
loop → one `WriteMessages` call with all prepared messages → 202/503. -/
def ingestEventBatch (body : Option Json) (hostname : String) (now : Int) (kafkaOk : Bool) :
    BatchResult :=
  match body with
  | none =>
    { status := HStatus.badRequest "Invalid JSON", total := 0, successCount := 0
    , errorCount := 0, attemptedWrite := false, delivered := none }
  | some j =>
    match decodeBatch j with
    | none =>
      { status := HStatus.badRequest "Invalid JSON", total := 0, successCount := 0
      , errorCount := 0, attemptedWrite := false, delivered := none }
    | some events? =>
      if validateStructBatch events? = false then
        { status := HStatus.badRequest "Validation failed", total := 0, successCount := 0
        , errorCount := 0, attemptedWrite := false, delivered := none }
      else
        let events := events?.getD []
        let acc := processBatch events hostname now
        if kafkaOk then
          { status := HStatus.accepted, total := events.length
          , successCount := acc.successCount, errorCount := acc.errorCount
          , attemptedWrite := true, delivered := some acc.messages }
        else
          { status := HStatus.serviceUnavailable "Failed to ingest batch", total := 0
          , successCount := 0, errorCount := 0, attemptedWrite := true, delivered := none }

/-!
Storage-writer model (the `StorageWriter` consumer).  The observable actions
of one consumed message and of one `writeBatch` flush are recorded as an
ordered effect trace.
-/

/-- Observable effects of the storage writer. -/
inductive SWEffect where
  /-- `reader.CommitMessages(ctx, msg)` for the fetched message. -/
  | commitOffset
  /-- The parsed event was sent into `batchCh`. -/
  | enqueue (e : Event)
  /-- The 5-second `time.After` fired with `batchCh` still full; the event
  was dropped (`"Batch channel full, dropping event"`). -/
  | drop (e : Event)
  /-- `json.Unmarshal` of the message value failed. -/
  | unmarshalError
  /-- `markEventsAsFailed` ran for the batch. -/
  | markFailed
  /-- `stmt.ExecContext` ran for one event inside the transaction. -/
  | insertRow (e : Event)
  /-- `tx.Commit()` succeeded. -/
  | dbTxCommitOk
  /-- `tx.Commit()` failed. -/
  | dbTxCommitFailed

/-- Outcome of the database interaction of one `writeBatch` call. -/
inductive TxOutcome where
  | beginFailed
  | prepareFailed
  | commitFailed
  | committed

/-- The body of `StorageWriter.Start`'s loop for one successfully fetched
message (part_007 lines 146–174): unmarshal the value (commit the offset
even for bad messages); otherwise send to `batchCh` — `channelBlocked`
models whether the 5-second `time.After` case fired first, in which case the
event is dropped — and then commit the offset unconditionally. -/
def startStep (msgValue : Option Json) (channelBlocked : Bool) : List SWEffect :=
  match msgValue.bind decodeEvent with
  | none => [SWEffect.unmarshalError, SWEffect.commitOffset]
  | some event =>
    (if channelBlocked then [SWEffect.drop event] else [SWEffect.enqueue event])
      ++ [SWEffect.commitOffset]

/-- `StorageWriter.writeBatch` (part_007 lines 215–302): empty batches
return at once; a failed `BeginTx` or `Prepare` marks the batch failed; an
insert is attempted per event (`insertOk` models per-row `ExecContext`
success; a metadata-marshal failure also skips the row); finally the
transaction commit succeeds or fails, the latter marking the events failed.
No offset commit occurs anywhere in `writeBatch`. -/
def writeBatch (events : List Event) (insertOk : Event → Bool) (outcome : TxOutcome) :
    List SWEffect :=
  if events.isEmpty then []
  else
    match outcome with
    | TxOutcome.beginFailed => [SWEffect.markFailed]
    | TxOutcome.prepareFailed => [SWEffect.markFailed]
    | TxOutcome.commitFailed =>
        ((events.filter insertOk).map SWEffect.insertRow)
          ++ [SWEffect.dbTxCommitFailed, SWEffect.markFailed]
    | TxOutcome.committed =>
        ((events.filter insertOk).map SWEffect.insertRow) ++ [SWEffect.dbTxCommitOk]

/-- One message's life through the storage writer: the fetch-loop step,
followed by the `writeBatch` flush of the batch that contains the event
(when it was enqueued; a dropped or unparsable message is in no batch —
`restOfBatch` are the other events flushed together with it). -/
def storagePipelineTrace (msgValue : Option Json) (channelBlocked : Bool)
    (restOfBatch : List Event) (insertOk : Event → Bool) (outcome : TxOutcome) :
    List SWEffect :=
  startStep msgValue channelBlocked ++
    (match msgValue.bind decodeEvent, channelBlocked with
     | some e, false => writeBatch (restOfBatch ++ [e]) insertOk outcome
     | _, _ => writeBatch restOfBatch insertOk outcome)

/-!
Concrete sample inputs used by witnesses and counterexamples.
-/

/-- A well-formed single-event request body. -/
def validEventBody : Json :=
  Json.obj [("timestamp", Json.num 1700000000), ("service", Json.str "api"),
            ("level", Json.str "INFO"), ("message", Json.str "ok")]

/-- A request body whose `level` is outside the closed set. -/
def invalidLevelBody : Json :=
  Json.obj [("timestamp", Json.num 1700000000), ("service", Json.str "api"),
            ("level", Json.str "TRACE"), ("message", Json.str "ok")]

/-- A request body with `service`, `level` and `message` but no `timestamp`. -/
def missingTimestampBody : Json :=
  Json.obj [("service", Json.str "api"), ("level", Json.str "INFO"),
            ("message", Json.str "ok")]

/-- The value of an enriched event message as consumed from the log. -/
def consumedEventJson : Json :=
  Json.obj [("timestamp", Json.num 1700000000), ("service", Json.str "api"),
            ("level", Json.str "INFO"), ("message", Json.str "ok"),
            ("ingested_at", Json.num 1700000001), ("host", Json.str "node-1")]

/-- The event `json.Unmarshal` recovers from `consumedEventJson`. -/
def consumedEvent : Event :=
  { timestamp := 1700000000, service := "api", level := "INFO", message := "ok"
  , metadata := none, traceID := "", spanID := "", ingestedAt := 1700000001
  , host := "node-1" }

/-- A validly enriched event whose metadata map is empty but non-nil. -/
def emptyMetaEvent : Event :=
  { timestamp := 1700000000, service := "api", level := "INFO", message := "ok"
  , metadata := some [], traceID := "", spanID := "", ingestedAt := 1700000001
  , host := "node-1" }

/-- A batch request body whose `events` array is empty. -/
def emptyBatchBody : Json :=
  Json.obj [("events", Json.arr [])]

/-- A batch request body holding one well-formed event. -/
def oneEventBatchBody : Json :=
  Json.obj [("events", Json.arr [validEventBody])]

/-! Helper lemmas. -/

theorem getField_nil (k : String) : getField [] k = none := rfl

theorem getField_cons (k' : String) (v : Json) (fs : List (String × Json)) (k : String) :
    getField ((k', v) :: fs) k = if k' == k then some v else getField fs k := by
  cases h : k' == k <;> simp [getField, List.find?, h]

theorem decode_encode (e : Event) (h : e.metadata ≠ some []) :
    decodeEvent (encodeEvent e) = some e := by
  obtain ⟨ts, sv, lv, ms, md, tr, sp, ia, ho⟩ := e
  rcases md with _ | (_ | ⟨f, fs⟩) <;>
    rcases htr : tr == "" with _ | _ <;>
    rcases hsp : sp == "" with _ | _ <;>
    rcases hho : ho == "" with _ | _ <;>
    simp_all [encodeEvent, decodeEvent, decodeStrField, decodeTimeField,
      decodeMetaField, getField_cons, getField_nil]

theorem validateStructEvent_false_of_rule (e : Event)
    (h : e.service = "" ∨ e.level = "" ∨ e.message = "" ∨ 255 < e.service.length
          ∨ levelOk e.level = false) :
    validateStructEvent e = false := by
  rcases h with h | h | h | h | h
  · simp [validateStructEvent, h]
  · simp [validateStructEvent, h]
  · simp [validateStructEvent, h]
  · simp [validateStructEvent, decide_eq_false (Nat.not_le.mpr h)]
  · simp [validateStructEvent, h]

/-! Claim theorems. -/

/-- C2: `IngestEvent` returns 202 only when the synchronous `WriteMessages`
call was reached and succeeded (the event is durably acknowledged); whenever
`WriteMessages` fails, the response is 503 and the event is not accepted. -/
theorem claim_C2 (body : Option Json) (hostname : String) (now : Int) (kafkaOk : Bool) :
    ((ingestEvent body hostname now kafkaOk).status = HStatus.accepted →
        kafkaOk = true ∧ (ingestEvent body hostname now kafkaOk).attemptedWrite = true ∧
        (ingestEvent body hostname now kafkaOk).delivered ≠ none) ∧
    ((ingestEvent body hostname now kafkaOk).attemptedWrite = true → kafkaOk = false →
        (ingestEvent body hostname now kafkaOk).status
            = HStatus.serviceUnavailable "Failed to ingest event" ∧
        ¬(ingestEvent body hostname now kafkaOk).status = HStatus.accepted) := by
  cases body with
  | none => simp [ingestEvent]
  | some j =>
    cases hd : decodeEvent j with
    | none => simp [ingestEvent, hd]
    | some ev =>
      cases hv : validateStructEvent ev with
      | false => simp [ingestEvent, hd, hv]
      | true => cases kafkaOk <;> simp [ingestEvent, hd, hv, eventValidate, eventToJSON]

/-- C2 witness: a valid event with a failing producer yields 503. -/
theorem claim_C2_witness :
    (ingestEvent (some validEventBody) "node-1" 1700000002 false).status
        = HStatus.serviceUnavailable "Failed to ingest event" :=
  (((claim_C2 (some validEventBody) "node-1" 1700000002 false).2) rfl rfl).1

/-- C4: malformed JSON bodies and events failing a validation rule (missing
`service`/`level`/`message`, `service` longer than 255, `level` outside the
closed set) yield 400, and such a validation failure is never answered with
a 5xx status. -/
theorem claim_C4 (hostname : String) (now : Int) (kafkaOk : Bool) (j : Json) (e : Event) :
    ((ingestEvent none hostname now kafkaOk).status = HStatus.badRequest "Invalid JSON") ∧
    (decodeEvent j = none →
        (ingestEvent (some j) hostname now kafkaOk).status = HStatus.badRequest "Invalid JSON") ∧
    (decodeEvent j = some e →
      (e.service = "" ∨ e.level = "" ∨ e.message = "" ∨ 255 < e.service.length
        ∨ levelOk e.level = false) →
      (ingestEvent (some j) hostname now kafkaOk).status = HStatus.badRequest "Validation failed" ∧
      (∀ s : String,
        ¬(ingestEvent (some j) hostname now kafkaOk).status = HStatus.internalError s ∧
        ¬(ingestEvent (some j) hostname now kafkaOk).status = HStatus.serviceUnavailable s)) := by
  refine ⟨by simp [ingestEvent], fun hd => by simp [ingestEvent, hd], fun hd hr => ?_⟩
  have hv := validateStructEvent_false_of_rule e hr
  simp [ingestEvent, hd, hv]

/-- C4 witness: a body whose `level` is `TRACE` is rejected with 400. -/
theorem claim_C4_witness :
    (ingestEvent (some invalidLevelBody) "node-1" 0 true).status
        = HStatus.badRequest "Validation failed" :=
  ((claim_C4 "node-1" 0 true invalidLevelBody
      ⟨1700000000, "api", "TRACE", "ok", none, "", "", 0, ""⟩).2.2 rfl
      (Or.inr (Or.inr (Or.inr (Or.inr rfl))))).1

/-- C5: a batch of 0 events (empty or nil `events`) or of more than 1000
events is rejected with 400 before `WriteMessages` is reached; a length of
1 to 1000 passes the size conjunct of the batch validation. -/
theorem claim_C5 (hostname : String) (now : Int) (kafkaOk : Bool) (j : Json)
    (events : List Event) :
    (decodeBatch j = some (some events) → events.length = 0 →
        (ingestEventBatch (some j) hostname now kafkaOk).status
            = HStatus.badRequest "Validation failed" ∧
        (ingestEventBatch (some j) hostname now kafkaOk).attemptedWrite = false ∧
        (ingestEventBatch (some j) hostname now kafkaOk).delivered = none) ∧
    (decodeBatch j = some (some events) → 1000 < events.length →
        (ingestEventBatch (some j) hostname now kafkaOk).status
            = HStatus.badRequest "Validation failed" ∧
        (ingestEventBatch (some j) hostname now kafkaOk).attemptedWrite = false ∧
        (ingestEventBatch (some j) hostname now kafkaOk).delivered = none) ∧
    (decodeBatch j = some none →
        (ingestEventBatch (some j) hostname now kafkaOk).status
            = HStatus.badRequest "Validation failed" ∧
        (ingestEventBatch (some j) hostname now kafkaOk).attemptedWrite = false ∧
        (ingestEventBatch (some j) hostname now kafkaOk).delivered = none) ∧
    (1 ≤ events.length → events.length ≤ 1000 → batchSizeOk events = true) := by
  refine ⟨fun hd hlen => ?_, fun hd hlen => ?_, fun hd => ?_, fun h1 h2 => ?_⟩
  · have hv : validateStructBatch (some events) = false := by
      simp [validateStructBatch, batchSizeOk, hlen]
    simp [ingestEventBatch, hd, hv]
  · have hv : validateStructBatch (some events) = false := by
      simp [validateStructBatch, batchSizeOk, decide_eq_false (Nat.not_le.mpr hlen)]
    simp [ingestEventBatch, hd, hv]
  · simp [ingestEventBatch, hd, validateStructBatch]
  · simp [batchSizeOk, h1, h2]

/-- C5 witness: the empty batch body is rejected with 400. -/
theorem claim_C5_witness :
    (ingestEventBatch (some emptyBatchBody) "node-1" 0 true).status
        = HStatus.badRequest "Validation failed" :=
  ((claim_C5 "node-1" 0 true emptyBatchBody []).1 rfl rfl).1

/-- C6: at the failing input — a single-event body with `service`, `level`
and `message` but no `timestamp` — the handler answers 400 from
`validator.Struct` (`Timestamp` carries `required`, which a zero `time.Time`
fails), before the enrichment that would have filled the timestamp ever
runs; `Event.Validate` itself would have filled it and returned no error. -/
theorem claim_C6_code_behavior :
    decodeEvent missingTimestampBody
        = some { Event.zero with service := "api", level := "INFO", message := "ok" } ∧
    validateStructEvent
        { Event.zero with service := "api", level := "INFO", message := "ok" } = false ∧
    eventValidate { Event.zero with service := "api", level := "INFO", message := "ok" } 1700000000
        = Except.ok ⟨1700000000, "api", "INFO", "ok", none, "", "", 1700000000, ""⟩ ∧
    (ingestEvent (some missingTimestampBody) "node-1" 1700000000 true).status
        = HStatus.badRequest "Validation failed" ∧
    (ingestEvent (some missingTimestampBody) "node-1" 1700000000 true).attemptedWrite = false :=
  ⟨rfl, rfl, rfl, rfl, rfl⟩

/-- C7 counterexample: an enriched event carrying an empty but non-nil
metadata map does not round-trip — `omitempty` drops the empty map on
encode, and decoding restores the nil map instead. -/
theorem claim_C7_counterexample :
    validateStructEvent emptyMetaEvent = true ∧
    ¬decodeEvent (encodeEvent emptyMetaEvent) = some emptyMetaEvent := by
  refine ⟨rfl, fun h => ?_⟩
  have h0 : decodeEvent (encodeEvent emptyMetaEvent)
      = some { emptyMetaEvent with metadata := none } := rfl
  rw [h0] at h
  have h1 := congrArg Event.metadata (Option.some.inj h)
  simp [emptyMetaEvent] at h1

/-- C7 amended: decoding the encoding restores the event exactly, for every
event whose metadata map is not empty-but-present (nil and non-empty maps
both round-trip; the empty non-nil map is the sole exception). -/
theorem claim_C7_amended (e : Event) (h : ¬e.metadata = some []) :
    decodeEvent (encodeEvent e) = some e :=
  decode_encode e h

/-- C7 witness: the sample consumed event round-trips. -/
theorem claim_C7_witness :
    decodeEvent (encodeEvent consumedEvent) = some consumedEvent :=
  claim_C7_amended consumedEvent (by simp [consumedEvent])

/-- C8: the partition key is the service name, its published form is the
UTF-8 bytes of `service`, equal services give equal keys, and the message
handed to the log by `IngestEvent` carries exactly those key bytes. -/
theorem claim_C8 :
    (∀ e : Event, utf8Bytes (getPartitionKey e) = utf8Bytes e.service) ∧
    (∀ e1 e2 : Event, e1.service = e2.service →
        utf8Bytes (getPartitionKey e1) = utf8Bytes (getPartitionKey e2)) ∧
    (∀ (j : Json) (e : Event) (hostname : String) (now : Int) (m : KafkaMessage),
        decodeEvent j = some e →
        (ingestEvent (some j) hostname now true).delivered = some m →
        m.key = utf8Bytes e.service) := by
  refine ⟨fun e => rfl, fun e1 e2 h => by simp [getPartitionKey, h], ?_⟩
  intro j e hostname now m hd hm
  cases hv : validateStructEvent e with
  | false => simp [ingestEvent, hd, hv] at hm
  | true =>
    simp [ingestEvent, hd, hv, eventValidate, eventToJSON] at hm
    rw [← hm]
    simp [getPartitionKey]

/-- C8 witness: two sample events with the same service get the same key. -/
theorem claim_C8_witness :
    utf8Bytes (getPartitionKey consumedEvent) = utf8Bytes (getPartitionKey emptyMetaEvent) :=
  claim_C8.2.1 consumedEvent emptyMetaEvent rfl

theorem processBatchEvent_cases (hostname : String) (now : Int) (acc : BatchAcc)
    (event : Event) :
    processBatchEvent hostname now acc event = { acc with errorCount := acc.errorCount + 1 } ∨
    ∃ m, processBatchEvent hostname now acc event
        = { acc with messages := acc.messages ++ [m], successCount := acc.successCount + 1 } := by
  unfold processBatchEvent
  simp only [eventValidate, eventToJSON]
  split <;> split
  · exact Or.inl rfl
  · exact Or.inr ⟨_, rfl⟩
  · exact Or.inl rfl
  · exact Or.inr ⟨_, rfl⟩

theorem processBatch_counts (hostname : String) (now : Int) (events : List Event) :
    ∀ acc : BatchAcc,
      ((events.foldl (processBatchEvent hostname now) acc).successCount
          + (events.foldl (processBatchEvent hostname now) acc).errorCount
        = acc.successCount + acc.errorCount + events.length) ∧
      ((events.foldl (processBatchEvent hostname now) acc).messages.length
          + acc.successCount
        = acc.messages.length + (events.foldl (processBatchEvent hostname now) acc).successCount) := by
  induction events with
  | nil => intro acc; simp
  | cons x xs ih =>
    intro acc
    obtain ⟨h1, h2⟩ := ih (processBatchEvent hostname now acc x)
    rcases processBatchEvent_cases hostname now acc x with h | ⟨m, h⟩ <;>
      rw [h] at h1 h2 <;>
      simp only [List.foldl_cons, h, List.length_cons, List.length_append,
        List.length_singleton, List.length_nil] at h1 h2 ⊢ <;>
      omega

/-- C9: whenever a batch request reaches the publish step, the response
counters satisfy `total = success_count + error_count`, `total` is the number
of events in the request, and `success_count` is the number of messages in
the single produce batch. -/
theorem claim_C9 (hostname : String) (now : Int) (j : Json) (events : List Event)
    (hd : decodeBatch j = some (some events))
    (hv : validateStructBatch (some events) = true) :
    ((ingestEventBatch (some j) hostname now true).total
        = (ingestEventBatch (some j) hostname now true).successCount
          + (ingestEventBatch (some j) hostname now true).errorCount) ∧
    ((ingestEventBatch (some j) hostname now true).total = events.length) ∧
    (∃ msgs, (ingestEventBatch (some j) hostname now true).delivered = some msgs ∧
        msgs.length = (ingestEventBatch (some j) hostname now true).successCount) := by
  obtain ⟨h1, h2⟩ := processBatch_counts hostname now events
      { messages := [], successCount := 0, errorCount := 0 }
  simp only [List.length_nil, Nat.zero_add, Nat.add_zero] at h1 h2
  simp [ingestEventBatch, hd, hv, processBatch]
  refine ⟨by omega, ?_⟩
  omega

/-- C9 witness: a one-event batch answers `total = success + error`. -/
theorem claim_C9_witness :
    (ingestEventBatch (some oneEventBatchBody) "node-1" 5 true).total
        = (ingestEventBatch (some oneEventBatchBody) "node-1" 5 true).successCount
          + (ingestEventBatch (some oneEventBatchBody) "node-1" 5 true).errorCount :=
  (claim_C9 "node-1" 5 oneEventBatchBody
      [⟨1700000000, "api", "INFO", "ok", none, "", "", 0, ""⟩] rfl rfl).1

/-- C10: `Event.Validate` never returns an error, so the handler branch for
a failed enrichment (the 400 "Event validation failed" response) is
unreachable for every input. -/
theorem claim_C10 :
    (∀ (e : Event) (now : Int), ∃ e', eventValidate e now = Except.ok e') ∧
    (∀ (body : Option Json) (hostname : String) (now : Int) (kafkaOk : Bool),
        ¬(ingestEvent body hostname now kafkaOk).status
            = HStatus.badRequest "Event validation failed") := by
  refine ⟨fun e now => ⟨_, rfl⟩, ?_⟩
  intro body hostname now kafkaOk
  cases body with
  | none => simp [ingestEvent]
  | some j =>
    cases hd : decodeEvent j with
    | none => simp [ingestEvent, hd]
    | some ev =>
      cases hv : validateStructEvent ev with
      | false => simp [ingestEvent, hd, hv]
      | true => cases kafkaOk <;> simp [ingestEvent, hd, hv, eventValidate, eventToJSON]

/-- C10 witness: the unreachable-branch status never shows on a sample run. -/
theorem claim_C10_witness :
    ¬(ingestEvent (some validEventBody) "node-1" 0 true).status
        = HStatus.badRequest "Event validation failed" :=
  claim_C10.2 (some validEventBody) "node-1" 0 true

/-- C1 counterexample: a fetched, parsed, enqueued event whose batch later
fails `tx.Commit` still has its offset committed — refuting, at a concrete
input, that `CommitMessages` happens only when the transaction committed. -/
theorem claim_C1_counterexample :
    SWEffect.commitOffset ∈
      storagePipelineTrace (some consumedEventJson) false [] (fun _ => true)
        TxOutcome.commitFailed ∧
    ¬SWEffect.dbTxCommitOk ∈
      storagePipelineTrace (some consumedEventJson) false [] (fun _ => true)
        TxOutcome.commitFailed := by
  have ht : storagePipelineTrace (some consumedEventJson) false [] (fun _ => true)
        TxOutcome.commitFailed
      = [SWEffect.enqueue consumedEvent, SWEffect.commitOffset,
         SWEffect.insertRow consumedEvent, SWEffect.dbTxCommitFailed,
         SWEffect.markFailed] := rfl
  constructor
  · rw [ht]; simp
  · rw [ht]; simp

/-- C1 amended: the offset of every fetched message is committed in the same
fetch iteration, right after the enqueue/drop/unmarshal handling and
independent of the transaction outcome; `writeBatch` itself never commits
an offset. -/
theorem claim_C1_amended :
    (∀ (msgValue : Option Json) (channelBlocked : Bool) (restOfBatch : List Event)
        (insertOk : Event → Bool) (outcome : TxOutcome),
      SWEffect.commitOffset ∈
        storagePipelineTrace msgValue channelBlocked restOfBatch insertOk outcome) ∧
    (∀ (events : List Event) (insertOk : Event → Bool) (outcome : TxOutcome),
      ¬SWEffect.commitOffset ∈ writeBatch events insertOk outcome) := by
  constructor
  · intro msgValue channelBlocked restOfBatch insertOk outcome
    have hs : SWEffect.commitOffset ∈ startStep msgValue channelBlocked := by
      cases h : msgValue.bind decodeEvent with
      | none => simp [startStep, h]
      | some e => cases channelBlocked <;> simp [startStep, h]
    simp [storagePipelineTrace, List.mem_append, hs]
  · intro events insertOk outcome
    cases he : events.isEmpty <;> cases outcome <;>
      simp [writeBatch, he, List.mem_append, List.mem_map]

/-- C1 witness: the amended commit-placement fact at a concrete message. -/
theorem claim_C1_witness :
    SWEffect.commitOffset ∈
      storagePipelineTrace (some consumedEventJson) false [] (fun _ => true)
        TxOutcome.committed :=
  claim_C1_amended.1 (some consumedEventJson) false [] (fun _ => true) TxOutcome.committed

/-- C3 counterexample: with the channel still full when the 5-second timer
fires, a fetched and successfully parsed event is dropped, never handed to
the batch writer, and its offset is committed anyway — there is no
configuration gate around this branch. -/
theorem claim_C3_counterexample :
    ¬SWEffect.enqueue consumedEvent ∈ startStep (some consumedEventJson) true ∧
    SWEffect.drop consumedEvent ∈ startStep (some consumedEventJson) true ∧
    SWEffect.commitOffset ∈ startStep (some consumedEventJson) true := by
  have ht : startStep (some consumedEventJson) true
      = [SWEffect.drop consumedEvent, SWEffect.commitOffset] := rfl
  refine ⟨?_, ?_, ?_⟩ <;> rw [ht] <;> simp

/-- C3 amended: for every fetched message that parses, the fetcher enqueues
the event when the channel accepts it within the 5-second timeout, and
otherwise drops it; in both cases the offset is committed immediately
afterwards.  The drop branch is unconditional — no shedding flag exists. -/
theorem claim_C3_amended (msgValue : Option Json) (e : Event) (channelBlocked : Bool)
    (h : msgValue.bind decodeEvent = some e) :
    startStep msgValue channelBlocked
      = (if channelBlocked then [SWEffect.drop e] else [SWEffect.enqueue e])
          ++ [SWEffect.commitOffset] := by
  simp [startStep, h]

/-- C3 witness: with a free channel the sample message is enqueued then
its offset committed. -/
theorem claim_C3_witness :
    startStep (some consumedEventJson) false
      = (if false then [SWEffect.drop consumedEvent] else [SWEffect.enqueue consumedEvent])
          ++ [SWEffect.commitOffset] :=
  claim_C3_amended (some consumedEventJson) consumedEvent false rfl

end Helios
